import Mathlib

/-
Verification of the borp locking subsystem (src/src/lock.rs).

The embedding models the filesystem explicitly: a store of JSON-valued
files, a set of directories, and a log of the filesystem events that the
code performs.  Roster (de)serialization follows serde_json's externally
tagged encoding of the Rust enum, and every lock operation is a pure
state-passing function from a `Lock` value and a filesystem to a
`StepResult`, mirroring the Rust control flow line by line (including the
implicit `Drop` of an `ExclusiveLock` on early-return error paths).
-/

set_option autoImplicit false

namespace Borp

/-- A filesystem path, as a list of components (PathBuf::join appends one). -/
abbrev Path := List String

/-- JSON documents, as produced and consumed by serde_json in lock.rs. -/
inductive Json where
  | null : Json
  | str : String → Json
  | num : Int → Json
  | arr : List Json → Json
  | obj : List (String × Json) → Json

/-- ProcessId(hostname, pid, thread-id) from lock.rs.  The Rust `pid` and
thread id are `i32`; they are modelled as unbounded `Int` with an explicit
range predicate `ProcessId.wf` where the `i32` bounds matter (the JSON
decoder rejects out-of-range numbers just as serde does for `i32`). -/
structure ProcessId where
  host : String
  pid : Int
  subid : Int
deriving DecidableEq, Repr

/-- `ProcessId::to_filename`: format!("\x7b\x7d.\x7b\x7d-\x7b\x7d", host, pid, subid). -/
def ProcessId.to_filename (i : ProcessId) : String :=
  i.host ++ "." ++ toString i.pid ++ "-" ++ toString i.subid

/-- `get_process_id` captures hostname and pid from the environment; the
ambient values are taken as arguments here.  The thread id is always 0. -/
def get_process_id (host : String) (pid : Int) : ProcessId :=
  ⟨host, pid, 0⟩

/-- The value fits in an `i32`, as the Rust fields do by typing. -/
def i32range (n : Int) : Bool :=
  decide (-(2 ^ 31) ≤ n) && decide (n < 2 ^ 31)

/-- Well-formedness of a modelled ProcessId: both integer fields are in
`i32` range (automatic in Rust, explicit in the `Int` model). -/
def ProcessId.wf (i : ProcessId) : Bool :=
  i32range i.pid && i32range i.subid

/-- serde serialization of the tuple struct `ProcessId`: a 3-element array. -/
def encodePid (i : ProcessId) : Json :=
  .arr [.str i.host, .num i.pid, .num i.subid]

/-- serde deserialization of `ProcessId` from JSON: an array of exactly
hostname string, pid number, subid number, with the `i32` range enforced. -/
def decodePid : Json → Option ProcessId
  | .arr [.str h, .num p, .num s] =>
      if i32range p && i32range s then some ⟨h, p, s⟩ else none
  | _ => none

/-- serde deserialization of `Vec<ProcessId>` element by element. -/
def decodePidList : List Json → Option (List ProcessId)
  | [] => some []
  | j :: js =>
      match decodePid j, decodePidList js with
      | some i, some is => some (i :: is)
      | _, _ => none

/-- The roster enum from lock.rs: Empty, Shared(Vec<ProcessId>) renamed
"shared", Exclusive(Vec<ProcessId>) renamed "exclusive". -/
inductive Roster where
  | Empty : Roster
  | Shared (holders : List ProcessId) : Roster
  | Exclusive (holders : List ProcessId) : Roster
deriving DecidableEq, Repr

/-- All holder identities of the roster are i32-well-formed. -/
def Roster.wfB : Roster → Bool
  | .Empty => true
  | .Shared xs => xs.all ProcessId.wf
  | .Exclusive xs => xs.all ProcessId.wf

/-- serde_json serialization of `Roster` (externally tagged enum): the unit
variant is the bare string "Empty" (never actually written by `update`),
and the newtype variants are single-key objects. -/
def encodeRoster : Roster → Json
  | .Empty => .str "Empty"
  | .Shared xs => .obj [("shared", .arr (xs.map encodePid))]
  | .Exclusive xs => .obj [("exclusive", .arr (xs.map encodePid))]

/-- serde_json deserialization of `Roster`: a bare variant-name string for
the unit variant, or a single-key object whose key is the variant name
("Empty" requires a null value; "shared"/"exclusive" require an array). -/
def decodeRoster : Json → Option Roster
  | .str s => if s = "Empty" then some .Empty else none
  | .obj [(k, v)] =>
      if k = "Empty" then
        match v with
        | .null => some .Empty
        | _ => none
      else if k = "shared" then
        match v with
        | .arr js => (decodePidList js).map Roster.Shared
        | _ => none
      else if k = "exclusive" then
        match v with
        | .arr js => (decodePidList js).map Roster.Exclusive
        | _ => none
      else none
  | _ => none

/-- Error values, following lib.rs's error_chain: LockError(path), the
IoError foreign link, and the JsonError foreign link (serde failures). -/
inductive Err where
  | lockError (p : Path) : Err
  | ioError (msg : String) : Err
  | jsonError : Err
deriving DecidableEq, Repr

/-- Filesystem events logged by the model, one per syscall the code makes. -/
inductive Event where
  | mkdir (p : Path) : Event
  | rmdir (p : Path) : Event
  | writeFile (p : Path) : Event
  | rmFile (p : Path) : Event
  | openFile (p : Path) : Event
deriving DecidableEq, Repr

/-- The event is anything but a directory creation. -/
def Event.notMkdir : Event → Bool
  | .mkdir _ => false
  | _ => true

/-- Any directory creation in the event is at the one permitted path. -/
def Event.mkdirOnlyAt (p : Path) : Event → Bool
  | .mkdir q => decide (q = p)
  | _ => true

/-- The modelled filesystem: JSON-valued files, directories, event log. -/
structure FS where
  files : List (Path × Json)
  dirs : List Path
  log : List Event

/-- `dir` is a prefix of `q` (so a file at `q` lives inside directory `dir`). -/
def isUnder : Path → Path → Bool
  | [], _ => true
  | _ :: _, [] => false
  | d :: ds, q :: qs => d == q && isUnder ds qs

/-- Read a file's content, `none` when absent. -/
def FS.read (fs : FS) (p : Path) : Option Json :=
  (fs.files.find? (fun e => decide (e.1 = p))).map (fun e => e.2)

/-- `File::create` + write: create or truncate, then write the document. -/
def FS.writeFile (fs : FS) (p : Path) (j : Json) : FS :=
  { fs with
    files := (p, j) :: fs.files.filter (fun e => !decide (e.1 = p)),
    log := fs.log ++ [.writeFile p] }

/-- `fs::remove_file` with a NotFound error tolerated (the only way the
code ever calls it): removes the file when present, no-op otherwise. -/
def FS.removeFileIgnore (fs : FS) (p : Path) : FS :=
  if (fs.read p).isSome then
    { fs with
      files := fs.files.filter (fun e => !decide (e.1 = p)),
      log := fs.log ++ [.rmFile p] }
  else fs

/-- `fs::create_dir`: atomically create-if-absent; `false` is the
AlreadyExists outcome.  (Other I/O errors of create_dir are not modelled;
no claim depends on them.) -/
def FS.createDir (fs : FS) (dir : Path) : Bool × FS :=
  if dir ∈ fs.dirs then (false, fs)
  else (true, { fs with dirs := dir :: fs.dirs, log := fs.log ++ [.mkdir dir] })

/-- `fs::remove_dir` with the error ignored (Drop does `let _ = ...`):
only removes an empty directory that exists. -/
def FS.removeDirIgnore (fs : FS) (dir : Path) : FS :=
  if fs.files.any (fun e => isUnder dir e.1) then fs
  else if dir ∈ fs.dirs then
    { fs with
      dirs := fs.dirs.filter (fun d => !decide (d = dir)),
      log := fs.log ++ [.rmdir dir] }
  else fs

/-- The ExclusiveLock struct from lock.rs: the lock directory and the
informational marker file inside it. -/
structure ExclusiveLock where
  dir : Path
  file : Path
deriving DecidableEq, Repr

/-- `impl Drop for ExclusiveLock`: best-effort remove of the marker file,
then of the directory, both errors ignored. -/
def ExclusiveLock.drop (el : ExclusiveLock) (fs : FS) : FS :=
  (fs.removeFileIgnore el.file).removeDirIgnore el.dir

/-- `ExclusiveLock::new`: create the directory (AlreadyExists becomes
LockError), then create the marker file inside it.  `markerFails` injects
the failure of the marker-file creation; on that failure the
partially-constructed lock is dropped (Rust scope exit), which removes the
directory again, before the error propagates. -/
def ExclusiveLock.new (dir : Path) (id : ProcessId) (markerFails : Bool)
    (fs : FS) : Except Err ExclusiveLock × FS :=
  let file := dir ++ [id.to_filename]
  match fs.createDir dir with
  | (false, fs1) => (.error (.lockError dir), fs1)
  | (true, fs1) =>
    let el : ExclusiveLock := ⟨dir, file⟩
    if markerFails then
      (.error (.ioError "marker create failed"), el.drop fs1)
    else
      (.ok el, fs1.writeFile file .null)

/-- Outcome of a `File::open` as matched in `Roster::load`. -/
inductive OpenResult where
  | found (j : Json) : OpenResult
  | notFound : OpenResult
  | ioError (e : String) : OpenResult

/-- `Roster::load` after the file open: absent file is an Empty roster (not
an error), any other open error propagates, and a file that does not
decode as a roster is a JsonError. -/
def Roster.loadFrom : OpenResult → Except Err Roster
  | .notFound => .ok .Empty
  | .ioError e => .error (.ioError e)
  | .found j =>
      match decodeRoster j with
      | some r => .ok r
      | none => .error .jsonError

/-- `Roster::load` against the modelled filesystem (which has no
spontaneous open faults, so the open yields found-or-notFound). -/
def Roster.load (fs : FS) (p : Path) : Except Err Roster × FS :=
  let fs1 := { fs with log := fs.log ++ [.openFile p] }
  match fs.read p with
  | none => (Roster.loadFrom .notFound, fs1)
  | some j => (Roster.loadFrom (.found j), fs1)

/-- `Roster::update`: Empty deletes the roster file (absence tolerated),
any other variant serializes and writes it. -/
def Roster.update (r : Roster) (p : Path) (fs : FS) : FS :=
  match r with
  | .Empty => fs.removeFileIgnore p
  | _ => fs.writeFile p (encodeRoster r)

/-- `Roster::make_exclusive`: only an Empty roster may become
Exclusive([id]), which is then persisted; any other state is LockError. -/
def Roster.make_exclusive (r : Roster) (id : ProcessId) (p : Path)
    (fs : FS) : Except Err Roster × FS :=
  match r with
  | .Empty =>
      let r2 := Roster.Exclusive [id]
      (.ok r2, r2.update p fs)
  | _ => (.error (.lockError p), fs)

/-- The Lock struct from lock.rs. -/
structure Lock where
  path : Path
  base : String
  exclusive : Option ExclusiveLock
  id : ProcessId
  roster : Roster

/-- `Lock::new`: starts unlocked (the Rust code captures the process id
internally via `get_process_id`; it is passed in here). -/
def Lock.new (path : Path) (base : String) (id : ProcessId) : Lock :=
  ⟨path, base, none, id, .Empty⟩

/-- `Lock::exclusive_name`: path join of "base.exclusive". -/
def Lock.exclusive_name (l : Lock) : Path :=
  l.path ++ [l.base ++ ".exclusive"]

/-- `Lock::roster_name`: path join of "base.roster". -/
def Lock.roster_name (l : Lock) : Path :=
  l.path ++ [l.base ++ ".roster"]

/-- The panic message of the double-acquire check in `Lock::lock_exclusive`. -/
def useError : String := "Use error, attempt to aquire multiple locks"

/-- Result of one Lock operation: ordinary Ok/Err outcome or a panic,
together with the Lock value and filesystem afterwards. -/
inductive Outcome where
  | ok : Outcome
  | err (e : Err) : Outcome
  | panicked (msg : String) : Outcome
deriving DecidableEq, Repr

structure StepResult where
  out : Outcome
  lock : Lock
  fs : FS

/-- Stage of `Lock::lock_exclusive` after the roster was loaded and
assigned: `self.roster.make_exclusive(self.id.clone(), &rname)?` — on
failure the guard `el` goes out of scope and is dropped, and the Lock
keeps the freshly loaded roster in its field. -/
def Lock.lock_exclusive_make (l : Lock) (el : ExclusiveLock) (r : Roster)
    (fs2 : FS) : StepResult :=
  match Roster.make_exclusive r l.id l.roster_name fs2 with
  | (.error e, fs3) => ⟨.err e, { l with roster := r }, el.drop fs3⟩
  | (.ok r2, fs3) => ⟨.ok, { l with roster := r2, exclusive := some el }, fs3⟩

/-- Stage of `Lock::lock_exclusive` after the guard was acquired:
`self.roster = Roster::load(&rname)?` — on failure the guard `el` is
dropped and the Lock's roster field is left unchanged. -/
def Lock.lock_exclusive_load (l : Lock) (el : ExclusiveLock)
    (fs1 : FS) : StepResult :=
  match Roster.load fs1 l.roster_name with
  | (.error e, fs2) => ⟨.err e, l, el.drop fs2⟩
  | (.ok r, fs2) => l.lock_exclusive_make el r fs2

/-- `Lock::lock_exclusive`: panic when a guard is already held; otherwise
acquire the guard directory, load the roster (assigning it to the Lock's
roster field on success), make it exclusive, and store the guard.  On an
error after guard acquisition the guard is dropped (scope exit) before the
error propagates. -/
def Lock.lock_exclusive (l : Lock) (markerFails : Bool) (fs : FS) : StepResult :=
  if l.exclusive.isSome then ⟨.panicked useError, l, fs⟩
  else
    match ExclusiveLock.new l.exclusive_name l.id markerFails fs with
    | (.error e, fs1) => ⟨.err e, l, fs1⟩
    | (.ok el, fs1) => l.lock_exclusive_load el fs1

/-- `Lock::release`: replace the roster field by Empty, then: Empty was a
no-op, Exclusive deletes the roster file (but touches neither the
`exclusive` field nor the guard directory), Shared panics via
`unimplemented!()`.  -/
def Lock.release (l : Lock) (fs : FS) : StepResult :=
  let rost := l.roster
  let l2 := { l with roster := Roster.Empty }
  match rost with
  | .Empty => ⟨.ok, l2, fs⟩
  | .Exclusive _ => ⟨.ok, l2, Roster.update .Empty l2.roster_name fs⟩
  | .Shared _ => ⟨.panicked "not implemented", l2, fs⟩

/-- Modelled from the spec: `Lock::mutate_name`, the dedicated path of the
short-lived mutation guard described in spec sections 4.4 and 6
("\x7bbase\x7d.mutate"); no such path is ever formed in src/src/lock.rs. -/
def Lock.mutate_name (l : Lock) : Path :=
  l.path ++ [l.base ++ ".mutate"]

/-- Modelled from the spec: `Roster::add_shared` is absent from
src/src/lock.rs.  Spec section 4.2: valid from Empty or from Shared(xs)
with the identity not already present, producing Shared(xs + [identity])
and persisting it; LockBusyError from Exclusive (and for a holder already
present, which the spec excludes from validity). -/
def Roster.add_shared (r : Roster) (id : ProcessId) (p : Path)
    (fs : FS) : Except Err Roster × FS :=
  match r with
  | .Empty =>
      let r2 := Roster.Shared [id]
      (.ok r2, r2.update p fs)
  | .Shared xs =>
      if id ∈ xs then (.error (.lockError p), fs)
      else
        let r2 := Roster.Shared (xs ++ [id])
        (.ok r2, r2.update p fs)
  | .Exclusive _ => (.error (.lockError p), fs)

/-- Modelled from the spec: stage of `lock_shared` after the roster was
loaded — `add_shared` under the still-held mutation guard `mg`, which is
released (dropped) after the persist, on success and failure alike. -/
def Lock.lock_shared_add (l : Lock) (mg : ExclusiveLock) (r : Roster)
    (fs2 : FS) : StepResult :=
  match Roster.add_shared r l.id l.roster_name fs2 with
  | (.error e, fs3) => ⟨.err e, l, mg.drop fs3⟩
  | (.ok r2, fs3) => ⟨.ok, { l with roster := r2 }, mg.drop fs3⟩

/-- Modelled from the spec: stage of `lock_shared` after the mutation
guard was acquired — load the roster, then add this holder. -/
def Lock.lock_shared_load (l : Lock) (mg : ExclusiveLock)
    (fs1 : FS) : StepResult :=
  match Roster.load fs1 l.roster_name with
  | (.error e, fs2) => ⟨.err e, l, mg.drop fs2⟩
  | (.ok r, fs2) => l.lock_shared_add mg r fs2

/-- Modelled from the spec: `Lock::lock_shared` is called from main.rs but
absent from src/src/lock.rs.  Spec section 4.4: callable only from
Unlocked (a call in any other state fails loudly, like the double-acquire
panic of lock_exclusive); under the mutation guard, load the Roster and
call add_shared; no long-held directory guard is taken; transition to
Shared. -/
def Lock.lock_shared (l : Lock) (fs : FS) : StepResult :=
  if l.exclusive.isSome || !decide (l.roster = Roster.Empty) then
    ⟨.panicked useError, l, fs⟩
  else
    match ExclusiveLock.new l.mutate_name l.id false fs with
    | (.error e, fs1) => ⟨.err e, l, fs1⟩
    | (.ok mg, fs1) => l.lock_shared_load mg fs1

/-- Sample identity of the process under test. -/
def pidA : ProcessId := ⟨"hostA", 1, 0⟩

/-- Sample identity of a second, distinct process. -/
def pidB : ProcessId := ⟨"hostB", 2, 0⟩

/-- The empty filesystem. -/
def fs0 : FS := ⟨[], [], []⟩

/-- A fresh lock over directory D with base "lock", as Lock::new builds it. -/
def lock0 : Lock := Lock.new ["D"] "lock" pidA

/-- A successful exclusive acquisition on the empty filesystem. -/
def s1 : StepResult := lock0.lock_exclusive false fs0

/-- The release following the successful exclusive acquisition. -/
def s2 : StepResult := s1.lock.release s1.fs

/-- A lock whose roster state is Shared with itself as holder. -/
def lockSh : Lock := { Lock.new ["D"] "lock" pidA with roster := .Shared [pidA] }

/-- Filesystem matching `lockSh`: the roster file records the shared holder. -/
def fsSh : FS := Roster.update (.Shared [pidA]) lock0.roster_name fs0

/-- Filesystem in which another process holds the lock shared (per the
design, shared holders create no guard directory, only a roster entry). -/
def fsBusy : FS := Roster.update (.Shared [pidB]) lock0.roster_name fs0

/-- A fresh lock attempting exclusive acquisition against `fsBusy`. -/
def s4 : StepResult := lock0.lock_exclusive false fsBusy

/-- A shared acquisition (spec-modelled lock_shared) on the empty filesystem. -/
def sh1 : StepResult := lock0.lock_shared fs0

/-- The exclusive acquisition attempted on the now-Shared lock. -/
def sh2 : StepResult := sh1.lock.lock_exclusive false sh1.fs

/- ------------------------------------------------------------------ -/
/- Helper lemmas.                                                      -/
/- ------------------------------------------------------------------ -/

theorem decodePid_encodePid (i : ProcessId) (h : i.wf = true) :
    decodePid (encodePid i) = some i := by
  cases i with
  | mk hh pp ss =>
    have h2 : (i32range pp && i32range ss) = true := h
    simp [encodePid, decodePid, h2]

theorem decodePidList_map (xs : List ProcessId) (h : xs.all ProcessId.wf = true) :
    decodePidList (xs.map encodePid) = some xs := by
  induction xs with
  | nil => rfl
  | cons x xs ih =>
    simp only [List.all_cons, Bool.and_eq_true] at h
    simp [decodePidList, decodePid_encodePid x h.1, ih h.2]

theorem decodeRoster_encodeRoster (r : Roster) (h : r.wfB = true) :
    decodeRoster (encodeRoster r) = some r := by
  cases r with
  | Empty => rfl
  | Shared xs =>
    have hx : xs.all ProcessId.wf = true := h
    simp [encodeRoster, decodeRoster, decodePidList_map xs hx]
  | Exclusive xs =>
    have hx : xs.all ProcessId.wf = true := h
    simp [encodeRoster, decodeRoster, decodePidList_map xs hx]

theorem read_writeFile_self (fs : FS) (p : Path) (j : Json) :
    (fs.writeFile p j).read p = some j := by
  unfold FS.writeFile FS.read
  rw [List.find?_cons_of_pos _ (by simp)]
  rfl

theorem load_after_update (r : Roster) (p : Path) (fs : FS)
    (hwf : r.wfB = true) (hne : r ≠ .Empty) :
    (Roster.load (r.update p fs) p).1 = .ok r := by
  have hwrite : r.update p fs = fs.writeFile p (encodeRoster r) := by
    cases r with
    | Empty => exact absurd rfl hne
    | Shared xs => rfl
    | Exclusive xs => rfl
  rw [hwrite]
  unfold Roster.load
  rw [read_writeFile_self]
  simp [Roster.loadFrom, decodeRoster_encodeRoster r hwf]

/-- C6 claim as stated: load yields Empty exactly on an absent file.  This
is the helper fact for the amended direction that absence gives Empty. -/
theorem loadFrom_notFound : Roster.loadFrom .notFound = .ok .Empty := rfl

/- ------------------------------------------------------------------ -/
/- Claim theorems.                                                     -/
/- ------------------------------------------------------------------ -/

/-- C6 (counterexample): a roster file that is PRESENT and contains the
JSON document "Empty" is decoded by serde to the Empty variant, so
`Roster::load` returns Empty even though the file is not absent, refuting
the claim that Empty is returned exactly when the roster file is absent. -/
theorem c6_load_empty_with_present_file :
    Roster.loadFrom (.found (Json.str "Empty")) = .ok .Empty
      ∧ OpenResult.found (Json.str "Empty") ≠ OpenResult.notFound :=
  ⟨rfl, fun h => nomatch h⟩

/-- C6 (amended): `Roster::load` returns Empty iff the file is absent or
the file is present and its content decodes to the (never-written) Empty
variant; a NotFound-distinct I/O error always propagates as an error, and
a present but undecodable file is always a JsonError — never Empty. -/
theorem c6_load_classification (o : OpenResult) :
    (Roster.loadFrom o = .ok .Empty ↔
        o = .notFound ∨ ∃ j, o = .found j ∧ decodeRoster j = some .Empty)
      ∧ (∀ e, Roster.loadFrom (.ioError e) = .error (.ioError e))
      ∧ (∀ j, decodeRoster j = none →
          Roster.loadFrom (.found j) = .error .jsonError) := by
  refine ⟨?_, fun e => rfl, fun j hj => by simp [Roster.loadFrom, hj]⟩
  cases o with
  | notFound => simp [Roster.loadFrom]
  | ioError e => simp [Roster.loadFrom]
  | found j =>
    cases hd : decodeRoster j with
    | none => simp [Roster.loadFrom, hd]
    | some r => simp [Roster.loadFrom, hd, eq_comm]

/-- C6 (witness): at the concrete undecodable document 3, load errors. -/
theorem c6_load_classification_witness :
    Roster.loadFrom (.found (Json.num 3)) = .error .jsonError :=
  (c6_load_classification (.found (Json.num 3))).2.2 (Json.num 3) rfl

/-- C7: `make_exclusive` from Empty succeeds with Exclusive([id]) and
persists it (reloading the file yields Exclusive([id])); from any
non-Empty roster it fails with LockError and leaves the filesystem
untouched. -/
theorem c7_make_exclusive_only_from_empty (r : Roster) (id : ProcessId)
    (p : Path) (fs : FS) (hid : id.wf = true) :
    (Roster.make_exclusive .Empty id p fs).1 = .ok (.Exclusive [id])
      ∧ (Roster.load (Roster.make_exclusive .Empty id p fs).2 p).1
          = .ok (.Exclusive [id])
      ∧ (r ≠ .Empty →
          Roster.make_exclusive r id p fs = (.error (.lockError p), fs)) := by
  refine ⟨rfl, ?_, ?_⟩
  · have hwf : (Roster.Exclusive [id]).wfB = true := by
      simp [Roster.wfB, hid]
    exact load_after_update (.Exclusive [id]) p fs hwf (fun h => nomatch h)
  · intro hne
    cases r with
    | Empty => exact absurd rfl hne
    | Shared xs => rfl
    | Exclusive xs => rfl

/-- C7 (witness): concrete instantiation at pidA over the empty filesystem,
with the non-Empty case at Shared([pidB]). -/
theorem c7_make_exclusive_only_from_empty_witness :
    pidA.wf = true
      ∧ (Roster.Shared [pidB] ≠ .Empty →
          Roster.make_exclusive (.Shared [pidB]) pidA lock0.roster_name fs0
            = (.error (.lockError lock0.roster_name), fs0)) :=
  ⟨by decide,
   (c7_make_exclusive_only_from_empty (.Shared [pidB]) pidA lock0.roster_name
      fs0 (by decide)).2.2⟩

/-- C8: for a Shared or Exclusive roster with one or more holders, writing
it with `update` and reloading it with `load` from the same path yields
the identical roster value (same variant, same holders in order). -/
theorem c8_roster_round_trip (fs : FS) (p : Path) (xs : List ProcessId)
    (_hne : xs ≠ []) (hwf : xs.all ProcessId.wf = true) :
    (Roster.load ((Roster.Shared xs).update p fs) p).1 = .ok (.Shared xs)
      ∧ (Roster.load ((Roster.Exclusive xs).update p fs) p).1
          = .ok (.Exclusive xs) :=
  ⟨load_after_update (.Shared xs) p fs hwf (fun h => nomatch h),
   load_after_update (.Exclusive xs) p fs hwf (fun h => nomatch h)⟩

/-- C8 (witness): round trip at the concrete holder list [pidA, pidB]. -/
theorem c8_roster_round_trip_witness :
    ([pidA, pidB] ≠ ([] : List ProcessId)
        ∧ [pidA, pidB].all ProcessId.wf = true)
      ∧ (Roster.load ((Roster.Shared [pidA, pidB]).update lock0.roster_name fs0)
            lock0.roster_name).1 = .ok (.Shared [pidA, pidB]) :=
  ⟨⟨by decide, by decide⟩,
   (c8_roster_round_trip fs0 lock0.roster_name [pidA, pidB] (by decide)
      (by decide)).1⟩

theorem isUnder_append (dir tail : Path) : isUnder dir (dir ++ tail) = true := by
  induction dir with
  | nil => rfl
  | cons d ds ih => simp [isUnder, ih]

theorem find_none_of_all_not_under (files : List (Path × Json)) (dir q : Path)
    (h : files.all (fun e => !isUnder dir e.1) = true)
    (hq : isUnder dir q = true) :
    files.find? (fun e => decide (e.1 = q)) = none := by
  cases hf : files.find? (fun e => decide (e.1 = q)) with
  | none => rfl
  | some e =>
    have h1 := List.find?_some hf
    have h2 : e ∈ files := List.mem_of_find?_eq_some hf
    simp only [List.all_eq_true] at h
    have h3 := h e h2
    have h4 : e.1 = q := of_decide_eq_true h1
    rw [h4, hq] at h3
    simp at h3

theorem any_isUnder_false (files : List (Path × Json)) (dir : Path)
    (h : files.all (fun e => !isUnder dir e.1) = true) :
    files.any (fun e => isUnder dir e.1) = false := by
  induction files with
  | nil => rfl
  | cons e es ih =>
    simp only [List.all_cons, Bool.and_eq_true] at h
    have h1 : isUnder dir e.1 = false := by
      cases hu : isUnder dir e.1
      · rfl
      · have := h.1
        rw [hu] at this
        exact absurd this (by simp)
    simp [List.any_cons, h1, ih h.2]

theorem new_markerFails_eq (dir : Path) (id : ProcessId) (fs : FS)
    (h1 : dir ∉ fs.dirs) :
    ExclusiveLock.new dir id true fs
      = (.error (.ioError "marker create failed"),
         ExclusiveLock.drop ⟨dir, dir ++ [id.to_filename]⟩
           { fs with dirs := dir :: fs.dirs, log := fs.log ++ [.mkdir dir] }) := by
  unfold ExclusiveLock.new FS.createDir
  rw [if_neg h1]
  rfl

theorem drop_on_clean (dir file : Path) (fs : FS)
    (hfile : isUnder dir file = true)
    (h2 : fs.files.all (fun e => !isUnder dir e.1) = true)
    (hmem : dir ∈ fs.dirs) :
    (ExclusiveLock.mk dir file).drop fs
      = { fs with dirs := fs.dirs.filter (fun d => !decide (d = dir)),
                  log := fs.log ++ [.rmdir dir] } := by
  unfold ExclusiveLock.drop
  have hrm : fs.removeFileIgnore file = fs := by
    unfold FS.removeFileIgnore FS.read
    rw [find_none_of_all_not_under fs.files dir file h2 hfile]
    rfl
  rw [hrm]
  unfold FS.removeDirIgnore
  rw [any_isUnder_false fs.files dir h2]
  simp [hmem]

/-- C5: when the guard directory creation succeeds but the marker-file
creation inside it fails, the error propagates AND the directory just
created is gone again (the partially built guard is dropped), leaving the
file store untouched — no orphan guard directory survives the failure. -/
theorem c5_no_orphan_on_marker_failure (dir : Path) (id : ProcessId) (fs : FS)
    (h1 : dir ∉ fs.dirs)
    (h2 : fs.files.all (fun e => !isUnder dir e.1) = true) :
    (ExclusiveLock.new dir id true fs).1
        = .error (.ioError "marker create failed")
      ∧ dir ∉ (ExclusiveLock.new dir id true fs).2.dirs
      ∧ (ExclusiveLock.new dir id true fs).2.files = fs.files := by
  rw [new_markerFails_eq dir id fs h1]
  rw [drop_on_clean dir (dir ++ [id.to_filename])
        { fs with dirs := dir :: fs.dirs, log := fs.log ++ [.mkdir dir] }
        (isUnder_append dir _) h2 (List.mem_cons_self _ _)]
  refine ⟨rfl, ?_, rfl⟩
  show dir ∉ (dir :: fs.dirs).filter (fun d => !decide (d = dir))
  intro hmem
  have := (List.mem_filter.mp hmem).2
  simp at this

/-- C5 (witness): concrete marker-creation failure over the empty
filesystem at directory D/lock.exclusive. -/
theorem c5_no_orphan_on_marker_failure_witness :
    (["D", "lock.exclusive"] ∉ fs0.dirs
        ∧ fs0.files.all (fun e => !isUnder ["D", "lock.exclusive"] e.1) = true)
      ∧ ((ExclusiveLock.new ["D", "lock.exclusive"] pidA true fs0).1
            = .error (.ioError "marker create failed")
          ∧ ["D", "lock.exclusive"]
              ∉ (ExclusiveLock.new ["D", "lock.exclusive"] pidA true fs0).2.dirs
          ∧ (ExclusiveLock.new ["D", "lock.exclusive"] pidA true fs0).2.files
              = fs0.files) :=
  ⟨⟨by decide, by decide⟩,
   c5_no_orphan_on_marker_failure ["D", "lock.exclusive"] pidA fs0
     (by decide) (by decide)⟩

/-- C1 (code divergence, evaluated at the failing input): after a
successful `lock_exclusive` on the empty filesystem, `release()` returns
Ok and deletes the roster file, but the `exclusive` field still holds the
guard and the guard directory D/lock.exclusive is still on disk — the
claim (and spec section 8) requires the guard directory to be gone after a
successful release. -/
theorem c1_release_leaves_guard_held :
    s1.out = .ok
      ∧ s2.out = .ok
      ∧ (s2.fs.read lock0.roster_name).isNone = true
      ∧ s2.lock.exclusive.isSome = true
      ∧ lock0.exclusive_name ∈ s2.fs.dirs := by
  refine ⟨rfl, rfl, rfl, rfl, ?_⟩
  show lock0.exclusive_name ∈ [["D", "lock.exclusive"]]
  decide

/-- C2 (code divergence, evaluated at the failing input): on a lock whose
roster state is Shared([pidA]) with the matching roster file on disk,
`release()` hits the `unimplemented!()` arm and panics instead of removing
the holder and returning Ok. -/
theorem c2_release_shared_panics :
    (fsSh.read lockSh.roster_name).isSome = true
      ∧ (lockSh.release fsSh).out = .panicked "not implemented" :=
  ⟨rfl, rfl⟩

/-- C4 (code divergence, evaluated at the failing input): a fresh lock
calls `lock_exclusive` while the on-disk roster records a shared holder
(pidB) and no guard directory exists.  The guard is acquired and then
correctly rolled back before the LockError propagates (no leaked
directory, `exclusive` stays empty) — but the Lock does NOT remain in its
initial Unlocked state: its roster field keeps the loaded Shared([pidB]),
so the automatic release on Drop then panics in the unimplemented shared
arm instead of being the no-op an Unlocked lock guarantees. -/
theorem c4_failed_lock_exclusive_pollutes_roster :
    s4.out = .err (.lockError lock0.roster_name)
      ∧ s4.fs.dirs = ([] : List Path)
      ∧ s4.lock.exclusive.isNone = true
      ∧ s4.lock.roster = .Shared [pidB]
      ∧ s4.lock.roster ≠ (Lock.new ["D"] "lock" pidA).roster
      ∧ (s4.lock.release s4.fs).out = .panicked "not implemented" := by
  refine ⟨?_, rfl, rfl, rfl, by decide, rfl⟩
  show s4.out = .err (.lockError ["D", "lock.roster"])
  rfl

theorem log_writeFile (fs : FS) (p : Path) (j : Json) (P : Event → Bool)
    (h : fs.log.all P = true) (hP : P (.writeFile p) = true) :
    (fs.writeFile p j).log.all P = true := by
  simp [FS.writeFile, List.all_append, h, hP]

theorem log_removeFileIgnore (fs : FS) (p : Path) (P : Event → Bool)
    (h : fs.log.all P = true) (hP : ∀ q, P (.rmFile q) = true) :
    (fs.removeFileIgnore p).log.all P = true := by
  unfold FS.removeFileIgnore
  split
  · simp [List.all_append, h, hP]
  · exact h

theorem log_removeDirIgnore (fs : FS) (dir : Path) (P : Event → Bool)
    (h : fs.log.all P = true) (hP : ∀ q, P (.rmdir q) = true) :
    (fs.removeDirIgnore dir).log.all P = true := by
  unfold FS.removeDirIgnore
  split
  · exact h
  · split
    · simp [List.all_append, h, hP]
    · exact h

theorem log_drop (el : ExclusiveLock) (fs : FS) (P : Event → Bool)
    (h : fs.log.all P = true) (hP1 : ∀ q, P (.rmFile q) = true)
    (hP2 : ∀ q, P (.rmdir q) = true) :
    (el.drop fs).log.all P = true :=
  log_removeDirIgnore _ _ _ (log_removeFileIgnore _ _ _ h hP1) hP2

theorem log_createDir (fs : FS) (dir : Path) (P : Event → Bool)
    (h : fs.log.all P = true) (hP : P (.mkdir dir) = true) :
    ((fs.createDir dir).2).log.all P = true := by
  unfold FS.createDir
  split
  · exact h
  · simp [List.all_append, h, hP]

theorem log_new (dir : Path) (id : ProcessId) (mf : Bool) (fs : FS)
    (P : Event → Bool)
    (h : fs.log.all P = true) (hmk : P (.mkdir dir) = true)
    (hw : ∀ q, P (.writeFile q) = true) (hrf : ∀ q, P (.rmFile q) = true)
    (hrd : ∀ q, P (.rmdir q) = true) :
    ((ExclusiveLock.new dir id mf fs).2).log.all P = true := by
  unfold ExclusiveLock.new
  cases hcd : fs.createDir dir with
  | mk b fs1 =>
    have hc := log_createDir fs dir P h hmk
    rw [hcd] at hc
    simp only [hcd]
    cases b
    · exact hc
    · cases mf
      · exact log_writeFile fs1 _ _ P hc (hw _)
      · exact log_drop ⟨dir, dir ++ [id.to_filename]⟩ fs1 P hc hrf hrd

theorem log_load (fs : FS) (p : Path) (P : Event → Bool)
    (h : fs.log.all P = true) (hP : P (.openFile p) = true) :
    ((Roster.load fs p).2).log.all P = true := by
  unfold Roster.load
  cases hr : fs.read p <;> simp [hr, List.all_append, h, hP]

theorem log_update (r : Roster) (p : Path) (fs : FS) (P : Event → Bool)
    (h : fs.log.all P = true) (hw : ∀ q, P (.writeFile q) = true)
    (hrf : ∀ q, P (.rmFile q) = true) :
    (r.update p fs).log.all P = true := by
  cases r with
  | Empty => exact log_removeFileIgnore fs p P h hrf
  | Shared xs => exact log_writeFile fs p _ P h (hw p)
  | Exclusive xs => exact log_writeFile fs p _ P h (hw p)

theorem log_make_exclusive (r : Roster) (id : ProcessId) (p : Path) (fs : FS)
    (P : Event → Bool)
    (h : fs.log.all P = true) (hw : ∀ q, P (.writeFile q) = true)
    (hrf : ∀ q, P (.rmFile q) = true) :
    ((Roster.make_exclusive r id p fs).2).log.all P = true := by
  cases r with
  | Empty => exact log_update (.Exclusive [id]) p fs P h hw hrf
  | Shared xs => exact h
  | Exclusive xs => exact h

theorem log_lock_exclusive (l : Lock) (mf : Bool) (fs : FS) (P : Event → Bool)
    (h : fs.log.all P = true)
    (hmk : P (.mkdir l.exclusive_name) = true)
    (hw : ∀ q, P (.writeFile q) = true)
    (hrf : ∀ q, P (.rmFile q) = true)
    (hrd : ∀ q, P (.rmdir q) = true)
    (hop : ∀ q, P (.openFile q) = true) :
    (l.lock_exclusive mf fs).fs.log.all P = true := by
  unfold Lock.lock_exclusive
  split
  · exact h
  · cases hn : ExclusiveLock.new l.exclusive_name l.id mf fs with
    | mk res fs1 =>
      have h1 : fs1.log.all P = true := by
        have hx := log_new l.exclusive_name l.id mf fs P h hmk hw hrf hrd
        rw [hn] at hx
        exact hx
      cases res with
      | error e => exact h1
      | ok el =>
        show (l.lock_exclusive_load el fs1).fs.log.all P = true
        unfold Lock.lock_exclusive_load
        cases hl : Roster.load fs1 l.roster_name with
        | mk res2 fs2 =>
          have h2 : fs2.log.all P = true := by
            have hx := log_load fs1 l.roster_name P h1 (hop _)
            rw [hl] at hx
            exact hx
          cases res2 with
          | error e => exact log_drop el fs2 P h2 hrf hrd
          | ok r =>
            show (l.lock_exclusive_make el r fs2).fs.log.all P = true
            unfold Lock.lock_exclusive_make
            cases hm : Roster.make_exclusive r l.id l.roster_name fs2 with
            | mk res3 fs3 =>
              have h3 : fs3.log.all P = true := by
                have hx := log_make_exclusive r l.id l.roster_name fs2 P h2 hw hrf
                rw [hm] at hx
                exact hx
              cases res3 with
              | error e => exact log_drop el fs3 P h3 hrf hrd
              | ok r2 => exact h3

theorem dirs_removeFileIgnore (fs : FS) (p : Path) :
    (fs.removeFileIgnore p).dirs = fs.dirs := by
  unfold FS.removeFileIgnore
  split <;> rfl

theorem log_release (l : Lock) (fs : FS) (P : Event → Bool)
    (h : fs.log.all P = true) (hrf : ∀ q, P (.rmFile q) = true) :
    (l.release fs).fs.log.all P = true ∧ (l.release fs).fs.dirs = fs.dirs := by
  unfold Lock.release
  cases hr : l.roster with
  | Empty => exact ⟨h, rfl⟩
  | Shared xs => exact ⟨h, rfl⟩
  | Exclusive xs =>
    exact ⟨log_removeFileIgnore fs _ P h hrf, dirs_removeFileIgnore fs _⟩

/-- C3 (counterexample): the complete syscall trace of a successful
`lock_exclusive` followed by `release` on the empty filesystem.  The only
directory ever created is the long-held guard D/lock.exclusive itself;
no dedicated mutation-guard directory (such as a "\x7bbase\x7d.mutate")
accompanies the roster read-modify-write of `lock_exclusive`, and the
roster deletion of `release` (the final event) happens with no directory
creation at all — refuting the claim that every roster read-modify-write
runs under a short-lived ExclusiveGuard distinct from the long-held one. -/
theorem c3_no_mutation_guard_in_trace :
    s2.out = .ok
      ∧ s2.fs.log
          = [.mkdir ["D", "lock.exclusive"],
             .writeFile ["D", "lock.exclusive", "hostA.1-0"],
             .openFile ["D", "lock.roster"],
             .writeFile ["D", "lock.roster"],
             .rmFile ["D", "lock.roster"]] :=
  ⟨rfl, rfl⟩

/-- C3 (amended): `release` never creates any directory (its event-log
extension contains no mkdir and the directory set is unchanged), and the
only directory `lock_exclusive` ever creates is the long-held guard path
"\x7bbase\x7d.exclusive" itself — there is no separate short-lived
mutation guard around the roster read-modify-write. -/
theorem c3_guard_usage (l : Lock) (fs : FS) (mf : Bool)
    (h1 : fs.log.all Event.notMkdir = true)
    (h2 : fs.log.all (Event.mkdirOnlyAt l.exclusive_name) = true) :
    ((l.release fs).fs.dirs = fs.dirs
        ∧ (l.release fs).fs.log.all Event.notMkdir = true)
      ∧ (l.lock_exclusive mf fs).fs.log.all
          (Event.mkdirOnlyAt l.exclusive_name) = true := by
  refine ⟨?_, ?_⟩
  · have hx := log_release l fs Event.notMkdir h1 (fun q => rfl)
    exact ⟨hx.2, hx.1⟩
  · exact log_lock_exclusive l mf fs _ h2 (by simp [Event.mkdirOnlyAt])
      (fun q => rfl) (fun q => rfl) (fun q => rfl) (fun q => rfl)

/-- C3 (witness): the guard-usage statement at the fresh lock over the
empty filesystem. -/
theorem c3_guard_usage_witness :
    (fs0.log.all Event.notMkdir = true
        ∧ fs0.log.all (Event.mkdirOnlyAt lock0.exclusive_name) = true)
      ∧ (((lock0.release fs0).fs.dirs = fs0.dirs
            ∧ (lock0.release fs0).fs.log.all Event.notMkdir = true)
          ∧ (lock0.lock_exclusive false fs0).fs.log.all
              (Event.mkdirOnlyAt lock0.exclusive_name) = true) :=
  ⟨⟨rfl, rfl⟩, c3_guard_usage lock0 fs0 false rfl rfl⟩

/-- C9 (counterexample): after a (spec-modelled) shared acquisition the
lock is in the Shared state with no guard held; calling the source's
`lock_exclusive` on it does not panic — it returns the ordinary
LockError value produced by `make_exclusive`, refuting the claim that a
double acquisition from the Shared state fails with a panic and never
with an ordinary error. -/
theorem c9_shared_state_error_not_panic :
    sh1.out = .ok
      ∧ sh1.lock.roster = .Shared [pidA]
      ∧ sh1.lock.exclusive.isNone = true
      ∧ sh2.out = .err (.lockError ["D", "lock.roster"]) :=
  ⟨rfl, rfl, rfl, rfl⟩

/-- C9 (amended): `lock_exclusive` panics with the use-error message
exactly when the exclusive-guard field is occupied (the Exclusive state);
in every other state — including a Shared roster with no held guard — it
returns an ordinary Ok/Err outcome.  The spec-modelled `lock_shared`
panics exactly when called from a non-Unlocked state. -/
theorem c9_panic_iff_guard_held (l : Lock) (fs : FS) (mf : Bool) :
    ((l.lock_exclusive mf fs).out = .panicked useError
        ↔ l.exclusive.isSome = true)
      ∧ ((l.lock_shared fs).out = .panicked useError
          ↔ (l.exclusive.isSome || !decide (l.roster = Roster.Empty)) = true) := by
  constructor
  · cases he : l.exclusive with
    | some el => simp [Lock.lock_exclusive, he]
    | none =>
      unfold Lock.lock_exclusive
      rw [he]
      simp only [Option.isSome_none, Bool.false_eq_true, if_false, iff_false]
      cases hn : ExclusiveLock.new l.exclusive_name l.id mf fs with
      | mk res fs1 =>
        cases res with
        | error e => simp
        | ok el =>
          show ¬(l.lock_exclusive_load el fs1).out = .panicked useError
          unfold Lock.lock_exclusive_load
          cases hl : Roster.load fs1 l.roster_name with
          | mk res2 fs2 =>
            cases res2 with
            | error e => simp
            | ok r =>
              show ¬(l.lock_exclusive_make el r fs2).out = .panicked useError
              unfold Lock.lock_exclusive_make
              cases hm : Roster.make_exclusive r l.id l.roster_name fs2 with
              | mk res3 fs3 =>
                cases res3 with
                | error e => simp
                | ok r2 => simp
  · cases hc : (l.exclusive.isSome || !decide (l.roster = Roster.Empty)) with
    | true => simp [Lock.lock_shared, hc]
    | false =>
      unfold Lock.lock_shared
      rw [hc]
      simp only [Bool.false_eq_true, if_false, iff_false]
      cases hn : ExclusiveLock.new l.mutate_name l.id false fs with
      | mk res fs1 =>
        cases res with
        | error e => simp
        | ok mg =>
          show ¬(l.lock_shared_load mg fs1).out = .panicked useError
          unfold Lock.lock_shared_load
          cases hl : Roster.load fs1 l.roster_name with
          | mk res2 fs2 =>
            cases res2 with
            | error e => simp
            | ok r =>
              show ¬(l.lock_shared_add mg r fs2).out = .panicked useError
              unfold Lock.lock_shared_add
              cases hm : Roster.add_shared r l.id l.roster_name fs2 with
              | mk res3 fs3 =>
                cases res3 with
                | error e => simp
                | ok r2 => simp

/-- C10: whenever `lock_exclusive` succeeds, the following `release`
returns Ok, and a second `lock_exclusive` on the same Lock value then
panics with the double-acquire use error instead of reacquiring, because
`release` leaves the `exclusive` field occupied. -/
theorem c10_relock_after_release_panics (l : Lock) (fs : FS) (mf mf2 : Bool)
    (h : (l.lock_exclusive mf fs).out = .ok) :
    ((l.lock_exclusive mf fs).lock.release (l.lock_exclusive mf fs).fs).out
        = .ok
      ∧ (((l.lock_exclusive mf fs).lock.release
            (l.lock_exclusive mf fs).fs).lock.lock_exclusive mf2
          ((l.lock_exclusive mf fs).lock.release
            (l.lock_exclusive mf fs).fs).fs).out = .panicked useError := by
  unfold Lock.lock_exclusive at h
  by_cases he : l.exclusive.isSome = true
  · rw [if_pos he] at h
    simp at h
  · rw [if_neg he] at h
    cases hn : ExclusiveLock.new l.exclusive_name l.id mf fs with
    | mk res fs1 =>
      rw [hn] at h
      cases res with
      | error e => simp at h
      | ok el =>
        have h1 : (l.lock_exclusive_load el fs1).out = .ok := h
        unfold Lock.lock_exclusive_load at h1
        cases hl : Roster.load fs1 l.roster_name with
        | mk res2 fs2 =>
          rw [hl] at h1
          cases res2 with
          | error e => simp at h1
          | ok r =>
            have h2 : (l.lock_exclusive_make el r fs2).out = .ok := h1
            unfold Lock.lock_exclusive_make at h2
            cases hm : Roster.make_exclusive r l.id l.roster_name fs2 with
            | mk res3 fs3 =>
              rw [hm] at h2
              cases res3 with
              | error e => simp at h2
              | ok r2 =>
                have hr : r = .Empty := by
                  cases r with
                  | Empty => rfl
                  | Shared xs => simp [Roster.make_exclusive] at hm
                  | Exclusive xs => simp [Roster.make_exclusive] at hm
                subst hr
                have hr2 : r2 = .Exclusive [l.id] := by
                  have hm2 := hm
                  simp [Roster.make_exclusive] at hm2
                  exact hm2.1.symm
                subst hr2
                have hrun : l.lock_exclusive mf fs
                    = StepResult.mk .ok
                        { l with roster := .Exclusive [l.id],
                                 exclusive := some el } fs3 := by
                  unfold Lock.lock_exclusive
                  rw [if_neg he, hn]
                  show l.lock_exclusive_load el fs1 = _
                  unfold Lock.lock_exclusive_load
                  rw [hl]
                  show l.lock_exclusive_make el .Empty fs2 = _
                  unfold Lock.lock_exclusive_make
                  rw [hm]
                rw [hrun]
                exact ⟨rfl, rfl⟩

/-- C10 (witness): the concrete acquire-release-reacquire run on the
empty filesystem. -/
theorem c10_relock_after_release_panics_witness :
    s1.out = .ok
      ∧ (s2.out = .ok
          ∧ (s2.lock.lock_exclusive false s2.fs).out = .panicked useError) :=
  ⟨rfl, c10_relock_after_release_panics lock0 fs0 false false rfl⟩

end Borp
